import Mathlib

/-!
Verification of the self-correcting code-execution bridge of the nousflash
repository (spaces/XortronDesktop): the MCP executor server
(mcp_code_server.py), the self-correcting bridge (xortron_mcp_bridge.py)
and the HTTP front end (code_server_http.py), shallowly embedded in Lean.

Subprocess behaviour, transport round-trips and JSON decoding of well-formed
payloads are external effects; they are modelled as explicit outcome values
or oracle functions supplied to the embedded code, which is otherwise a
direct translation of the Python sources.
-/

/-- Python whitespace for `str.strip` / regex `\s` (ASCII range). -/
def isPySpace (c : Char) : Bool :=
  c = ' ' || c = '\t' || c = '\n' || c = '\r' || c = '\x0b' || c = '\x0c'

/-- Regex `\w` word character (ASCII range). -/
def isWordChar (c : Char) : Bool := c.isAlphanum || c = '_'

/-- The single-quote character, U+0027. -/
def squote : Char := Char.ofNat 39

/-- The single-quote character as a one-character string. -/
def apos : String := String.singleton squote

/-- Python `str.strip()`: remove leading and trailing whitespace. -/
def pyStrip (s : String) : String :=
  String.mk (((s.toList.dropWhile isPySpace).reverse.dropWhile isPySpace).reverse)

/-- Python `a or b` on strings: `b` if `a` is empty, else `a`. -/
def pyOrS (a b : String) : String := if a = "" then b else a

/-- Whether `needle` occurs as a contiguous sublist of `hay` (Python `in`). -/
def subList (needle : List Char) : List Char → Bool
  | [] => needle.isEmpty
  | c :: rest => needle.isPrefixOf (c :: rest) || subList needle rest

/-- Python `needle in hay` on strings. -/
def strContains (hay needle : String) : Bool := subList needle.toList hay.toList

/-- Dict lookup on an association list (Python `d[k]` / `k in d`). -/
def dictGet (k : String) : List (String × String) → Option String
  | [] => none
  | (k2, v) :: rest => if k = k2 then some v else dictGet k rest

/-- Character-wise longest common prefix of two character lists. -/
def lcpChars : List Char → List Char → List Char
  | x :: xs, y :: ys => if x = y then x :: lcpChars xs ys else []
  | _, _ => []

/-- Leading run of spaces and tabs of a line. -/
def leadingWs (l : List Char) : List Char := l.takeWhile (fun c => c = ' ' || c = '\t')

/-- Split a character list at newline characters (Python `text.split('\n')`). -/
def splitNl : List Char → List (List Char)
  | [] => [[]]
  | c :: rest =>
    if c = '\n' then [] :: splitNl rest
    else
      match splitNl rest with
      | [] => [[c]]
      | l :: ls => (c :: l) :: ls

/-- Join lines with newline characters (Python `'\n'.join(...)`). -/
def joinNl : List (List Char) → List Char
  | [] => []
  | [l] => l
  | l :: ls => l ++ '\n' :: joinNl ls

/-- Python `textwrap.dedent`: lines consisting solely of spaces/tabs are
normalized to empty; the longest common leading space/tab prefix of all
remaining nonempty lines is removed from each of them. -/
def dedent (text : String) : String :=
  let lines := (splitNl text.toList).map
    (fun l => if l.all (fun c => c = ' ' || c = '\t') then [] else l)
  let contents := lines.filter (fun l => l.isEmpty = false)
  let margin : List Char :=
    match contents with
    | [] => []
    | c :: cs => cs.foldl (fun m l => lcpChars m (leadingWs l)) (leadingWs c)
  if margin.isEmpty then String.mk (joinNl lines)
  else
    String.mk (joinNl (lines.map (fun l =>
      if margin.isPrefixOf l then l.drop margin.length else l)))

/-- A result dictionary as produced by the executor and the bridge.  Python
passes these around as JSON objects with optional keys; each key is modelled
as an `Option` field (`none` = key absent). -/
structure ExecResult where
  stdout : Option String := none
  stderr : Option String := none
  exit_code : Option Int := none
  elapsed_s : Option ℚ := none
  error : Option String := none
  traceback : Option String := none
  attempts : Option Nat := none
  final_code : Option String := none
deriving DecidableEq, Repr

/-- Rendering of a Python float in an f-string (opaque model: every
timeout value renders to a definite text). -/
def pyFloatStr (q : ℚ) : String := toString q

/-- Behaviour of one spawned subprocess, from the executor's point of view:
either it finishes before the timeout (with captured output, return code and
the measured, rounded elapsed time) or the timeout elapses first. -/
inductive ProcOutcome where
  | completes (stdout stderr : String) (returncode : Int) (elapsed : ℚ)
  | timesOut
deriving DecidableEq, Repr

/-- mcp_code_server.py `BLOCKED_SHELL_PATTERNS`. -/
def BLOCKED_SHELL_PATTERNS : List String :=
  ["rm -rf /", "mkfs", "dd if=/dev/zero", ":()\x7b", "fork bomb"]

/-- mcp_code_server.py `_run_python`: run code in a subprocess; on timeout
kill it and report an error dict (note: no `elapsed_s` key on that path). -/
def _run_python (code : String) (timeout : ℚ) (o : ProcOutcome) : ExecResult :=
  match code, o with
  | _, .completes out err rc el =>
    { stdout := some (pyStrip out), stderr := some (pyStrip err),
      exit_code := some rc, elapsed_s := some el }
  | _, .timesOut =>
    { error := some ("Execution timed out after " ++ pyFloatStr timeout ++ "s"),
      exit_code := some (-1) }

/-- mcp_code_server.py `_run_shell`: refuse denylisted commands before any
subprocess is created; otherwise run the command; on timeout kill it and
report an error dict (note: message prefix differs from the python mode and
no `elapsed_s` key is present). -/
def _run_shell (cmd : String) (timeout : ℚ) (o : ProcOutcome) : ExecResult :=
  match BLOCKED_SHELL_PATTERNS.find? (fun blocked => strContains cmd blocked) with
  | some blocked =>
    { error := some ("Blocked pattern detected: " ++ apos ++ blocked ++ apos),
      exit_code := some (-1) }
  | none =>
    match o with
    | .completes out err rc el =>
      { stdout := some (pyStrip out), stderr := some (pyStrip err),
        exit_code := some rc, elapsed_s := some el }
    | .timesOut =>
      { error := some ("Shell command timed out after " ++ pyFloatStr timeout ++ "s"),
        exit_code := some (-1) }

/-- Outcome of one `call_tool` dispatch on the server: either the execution
helper runs (with its subprocess outcome), or some exception escapes the
helper and is caught by the generic handler with its message and traceback. -/
inductive ServerOutcome where
  | proc (o : ProcOutcome)
  | raises (msg tb : String)
deriving DecidableEq, Repr

/-- mcp_code_server.py `call_tool`: dispatch on the tool name; any exception
becomes an error/traceback dict (note: that dict has no `exit_code` key, and
neither has the unknown-tool dict). -/
def call_tool (name : String) (arg : String) (timeout : ℚ) (o : ServerOutcome) : ExecResult :=
  match o with
  | .raises msg tb => { error := some msg, traceback := some tb }
  | .proc po =>
    if name = "execute_python" then _run_python arg timeout po
    else if name = "execute_shell" then _run_shell arg timeout po
    else { error := some ("Unknown tool: " ++ name) }

/-- A decoded JSON value (as produced by `json.loads`), sufficient for the
request payloads and tool schemas appearing in the sources. -/
inductive JVal where
  | jstr (s : String)
  | jnum (q : ℚ)
  | jbool (b : Bool)
  | jnull
  | jarr (items : List JVal)
  | jobj (pairs : List (String × JVal))

/-- Fold a digit list into a natural number. -/
def digitsToNat (cs : List Char) : Nat :=
  cs.foldl (fun a c => a * 10 + (c.toNat - 48)) 0

/-- Parse an unsigned decimal numeral with optional fractional part
(simplified model of what Python `float()` accepts; exponents and the
inf/nan spellings are not modelled, no claim depends on them). -/
def parseFloatCore (cs : List Char) : Option ℚ :=
  let ip := cs.takeWhile Char.isDigit
  match cs.drop ip.length with
  | [] => if ip.isEmpty then none else some (digitsToNat ip)
  | c :: fracRest =>
    if c = '.' then
      let fp := fracRest.takeWhile Char.isDigit
      if (fracRest.drop fp.length).isEmpty = false then none
      else if ip.isEmpty && fp.isEmpty then none
      else some ((digitsToNat ip : ℚ) + (digitsToNat fp : ℚ) / ((10 : ℚ) ^ fp.length))
    else none

/-- Python `float(s)` on a string: strip whitespace, optional sign, numeral. -/
def pyFloatOfString (s : String) : Option ℚ :=
  let cs := ((s.toList.dropWhile isPySpace).reverse.dropWhile isPySpace).reverse
  match cs with
  | [] => none
  | c :: rest =>
    if c = '-' then (parseFloatCore rest).map (fun q => -q)
    else if c = '+' then parseFloatCore rest
    else parseFloatCore cs

/-- Python `float(v)` on a JSON-decoded value: numbers pass through, bools
coerce to 0/1, numeric strings parse; `None`, lists and dicts raise
(modelled as `none`). -/
def pyFloat : JVal → Option ℚ
  | .jnum q => some q
  | .jbool b => some (if b then 1 else 0)
  | .jstr s => pyFloatOfString s
  | .jnull => none
  | .jarr _ => none
  | .jobj _ => none

/-- An MCP tool descriptor (mcp.types.Tool): name, description, input schema. -/
structure Tool where
  name : String
  description : String
  inputSchema : JVal

/-- mcp_code_server.py `TOOLS`: the protocol catalog advertised by the server. -/
def TOOLS : List Tool := [
  { name := "execute_python",
    description :=
      "Execute arbitrary Python 3 code in an isolated subprocess. " ++
      "stdout + stderr are captured and returned. " ++
      "The subprocess is killed after `timeout` seconds (default 30).",
    inputSchema := .jobj [
      ("type", .jstr "object"),
      ("properties", .jobj [
        ("code", .jobj [("type", .jstr "string"),
                        ("description", .jstr "Python source code to execute.")]),
        ("timeout", .jobj [("type", .jstr "number"),
                           ("description", .jstr "Max seconds to run (default 30)."),
                           ("default", .jnum 30)])]),
      ("required", .jarr [.jstr "code"])] },
  { name := "execute_shell",
    description :=
      "Run a shell command. stdout + stderr returned. " ++
      "Killed after `timeout` seconds (default 15). " ++
      "Dangerous commands (rm -rf /, :()\x7b ...) are blocked.",
    inputSchema := .jobj [
      ("type", .jstr "object"),
      ("properties", .jobj [
        ("cmd", .jobj [("type", .jstr "string"),
                       ("description", .jstr "Shell command to run.")]),
        ("timeout", .jobj [("type", .jstr "number"),
                           ("description", .jstr "Max seconds to run (default 15)."),
                           ("default", .jnum 15)])]),
      ("required", .jarr [.jstr "cmd"])] }]

/-- Name and description declared by one of the façade's FunctionTool
wrappers (xortron_mcp_bridge.py `llama_tools`). -/
structure LlamaToolDecl where
  name : String
  description : String
deriving DecidableEq

/-- xortron_mcp_bridge.py `llama_tools`: the two FunctionTool declarations
(`FunctionTool.from_defaults` name/description arguments). -/
def llama_tools : List LlamaToolDecl := [
  { name := "execute_python",
    description := "Execute Python 3 code. Returns JSON with stdout, stderr, exit_code." },
  { name := "execute_shell",
    description := "Run a shell command. Returns JSON with stdout, stderr, exit_code." }]

namespace HttpServer

/-- code_server_http.py `execute_python` subprocess outcome: normal exit,
timeout, or any other exception from the launch/run. -/
inductive HttpProcOutcome where
  | completes (stdout stderr : String) (returncode : Int) (elapsed : ℚ)
  | timesOut
  | raises (msg : String)
deriving DecidableEq, Repr

/-- code_server_http.py `execute_python`: on timeout the result carries the
timeout message, empty stdout/stderr, `exit_code = -1` and `elapsed_s` equal
to the configured timeout; on any other exception the message lands in
`error` with `exit_code = -1` and no `elapsed_s`. -/
def execute_python (code : String) (timeout : ℚ) (o : HttpProcOutcome) : ExecResult :=
  match code, o with
  | _, .completes out err rc el =>
    { stdout := some (pyStrip out), stderr := some (pyStrip err),
      exit_code := some rc, elapsed_s := some el }
  | _, .timesOut =>
    { error := some ("Execution timed out after " ++ pyFloatStr timeout ++ "s"),
      stdout := some "", stderr := some "", exit_code := some (-1),
      elapsed_s := some timeout }
  | _, .raises msg =>
    { error := some msg, stdout := some "", stderr := some "", exit_code := some (-1) }

/-- The request body of a POST, as seen after `json.loads`: the read bytes
fail to parse (`malformed`), parse to a non-object (`nonObject`, on which
`payload.get` raises), or parse to an object with the given pairs. -/
inductive ReqBody where
  | malformed
  | nonObject
  | object (pairs : List (String × JVal))

/-- Lookup of a key in a decoded JSON object. -/
def jget (pairs : List (String × JVal)) (k : String) : Option JVal :=
  match pairs with
  | [] => none
  | (k2, v) :: rest => if k2 = k then some v else jget rest k

/-- Control-flow outcome of `Handler.do_POST`: an early JSON error response,
a 404 for an unknown path, an uncaught exception escaping the handler (the
connection is dropped, no HTTP response is produced), or execution of the
given code with the given timeout followed by a 200 response. -/
inductive PostResult where
  | resp400 (err : String)
  | resp404
  | raisedFault
  | executed (code : String) (timeout : ℚ)
deriving DecidableEq, Repr

/-- code_server_http.py `Handler.do_POST`: path check, JSON parse, field
extraction (`float` conversion of `timeout` happens before the empty-`code`
check and raises on inconvertible values), then execution. -/
def do_POST (path : String) (body : ReqBody) : PostResult :=
  if path = "/execute" || path = "/execute/" then
    match body with
    | .malformed => .resp400 "Invalid JSON body"
    | .nonObject => .raisedFault
    | .object pairs =>
      let codeV := (jget pairs "code").getD (.jstr "")
      match pyFloat ((jget pairs "timeout").getD (.jnum 30)) with
      | none => .raisedFault
      | some t =>
        match codeV with
        | .jstr code =>
          if pyStrip code = "" then .resp400 "No code provided" else .executed code t
        | _ => .raisedFault
  else .resp404

end HttpServer

/-- xortron_mcp_bridge.py `MAX_SELF_CORRECT_ATTEMPTS`. -/
def MAX_SELF_CORRECT_ATTEMPTS : Nat := 3

/-- xortron_mcp_bridge.py `_IMPORT_MAP`: symbol/module name to import line. -/
def _IMPORT_MAP : List (String × String) := [
  ("np", "import numpy as np"),
  ("pd", "import pandas as pd"),
  ("plt", "import matplotlib.pyplot as plt"),
  ("math", "import math"),
  ("random", "import random"),
  ("json", "import json"),
  ("re", "import re"),
  ("os", "import os"),
  ("sys", "import sys"),
  ("time", "import time"),
  ("decimal", "from decimal import Decimal, getcontext"),
  ("fractions", "from fractions import Fraction"),
  ("itertools", "import itertools"),
  ("functools", "import functools"),
  ("collections", "import collections"),
  ("statistics", "import statistics"),
  ("hashlib", "import hashlib")]

/-- Literal prefix of the regex `NameError: name '(\w+)'`. -/
def nameErrorLit : List Char := ("NameError: name " ++ apos).toList

/-- Literal prefix of the regex `ModuleNotFoundError: No module named '(\w+)'`. -/
def moduleErrorLit : List Char := ("ModuleNotFoundError: No module named " ++ apos).toList

/-- `re.search` of a pattern of the form `lit(\w+)'`: at the first position
where the literal is followed by a nonempty word-character run that is in
turn followed by a closing single quote, the run is captured.  (Backtracking
inside `\w+` cannot produce other matches: a shortened run is followed by a
word character, never by the quote.) -/
def searchCapture (lit : List Char) : List Char → Option String
  | [] => none
  | c :: rest =>
    if lit.isPrefixOf (c :: rest) then
      let after := (c :: rest).drop lit.length
      let run := after.takeWhile isWordChar
      if run.isEmpty = false && (after.drop run.length).headD 'x' = squote then
        some (String.mk run)
      else searchCapture lit rest
    else searchCapture lit rest

/-- The characters of the literal `print`. -/
def printLit : List Char := "print".toList

/-- Regex `\s+[^(]` matched at the start of `s`: a nonempty whitespace run,
some prefix of which is followed by one further character other than `(`. -/
def matchSpacePlusNotParen : List Char → Bool
  | [] => false
  | c :: rest =>
    isPySpace c &&
      (match rest with
       | [] => false
       | d :: _ => (d != '(') || matchSpacePlusNotParen rest)

/-- Word-boundary test for a position whose preceding character is `prev`
(`none` at the start of the text); the following character is `p` of
`print`, a word character, so `\b` holds iff `prev` is not one. -/
def boundaryOk : Option Char → Bool
  | none => true
  | some p => !(isWordChar p)

/-- Scanner for `re.search(r'\bprint\s+[^(]', code)`. -/
def searchPrintGo : Option Char → List Char → Bool
  | _, [] => false
  | prev, c :: rest =>
    (boundaryOk prev && printLit.isPrefixOf (c :: rest) &&
      matchSpacePlusNotParen ((c :: rest).drop 5))
    || searchPrintGo (some c) rest

/-- Whether `re.search(r'\bprint\s+[^(]', code)` finds a match. -/
def searchPrintStmt (code : String) : Bool := searchPrintGo none code.toList

/-- Greedy match of `\s+(.+)` against `after` (the text following `print`),
where `k` counts down the whitespace characters available to `\s+` from the
maximal run: the group is the maximal newline-free run after the chosen
split and must be nonempty.  Returns the group and the text after the match. -/
def matchGroupFrom (after : List Char) : Nat → Option (List Char × List Char)
  | 0 => none
  | k + 1 =>
    match after.drop (k + 1) with
    | [] => matchGroupFrom after k
    | d :: tl =>
      if d = '\n' then matchGroupFrom after k
      else
        let grp := (d :: tl).takeWhile (fun c => c != '\n')
        some (grp, (d :: tl).drop grp.length)

/-- Match of `\bprint\s+(.+)` at the start of `s` (boundary already checked):
`print`, then a greedy whitespace run, then a nonempty newline-free group. -/
def matchPrintSub (s : List Char) : Option (List Char × List Char) :=
  if printLit.isPrefixOf s then
    let after := s.drop 5
    matchGroupFrom after ((after.takeWhile isPySpace).length)
  else none

theorem matchGroupFrom_length {after : List Char} :
    ∀ {k : Nat} {g a : List Char}, matchGroupFrom after k = some (g, a) →
      a.length < after.length := by
  intro k
  induction k with
  | zero => intro g a h; simp [matchGroupFrom] at h
  | succ k ih =>
    intro g a h
    rw [matchGroupFrom] at h
    cases hd : after.drop (k + 1) with
    | nil => rw [hd] at h; exact ih h
    | cons d tl =>
      rw [hd] at h
      have h2 : (if d = '\n' then matchGroupFrom after k
          else
            let grp := (d :: tl).takeWhile (fun c => c != '\n')
            some (grp, (d :: tl).drop grp.length)) = some (g, a) := h
      by_cases hnl : d = '\n'
      · rw [if_pos hnl] at h2; exact ih h2
      · rw [if_neg hnl] at h2
        injection h2 with h1
        injection h1 with hg ha
        have hlen : (d :: tl).length = after.length - (k + 1) := by
          rw [← hd, List.length_drop]
        have hpos : 0 < after.length - (k + 1) := by
          rw [← hlen]; simp
        have htake : 1 ≤ ((d :: tl).takeWhile (fun c => c != '\n')).length := by
          simp [List.takeWhile_cons, hnl]
        have ha2 : a.length
            = (d :: tl).length - ((d :: tl).takeWhile (fun c => c != '\n')).length := by
          rw [← ha, List.length_drop]
        simp only [List.length_cons] at hlen ha2
        omega

theorem matchPrintSub_length {s g a : List Char} (h : matchPrintSub s = some (g, a)) :
    a.length < s.length := by
  unfold matchPrintSub at h
  by_cases hp : printLit.isPrefixOf s
  · rw [if_pos hp] at h
    have h1 := matchGroupFrom_length h
    have h2 : (s.drop 5).length = s.length - 5 := List.length_drop 5 s
    omega
  · rw [if_neg hp] at h
    exact absurd h (by simp)

/-- Scanner for `re.sub(r'\bprint\s+(.+)', lambda m: 'print(' + m.group(1)
+ ')', code)`: non-overlapping matches are replaced left to right; after a
replacement scanning resumes after the matched text, whose last character
(the end of the group) feeds the next word-boundary test.  The structural
`fuel` argument only drives the recursion: every step consumes at least one
character, so with `fuel = l.length` the exhaustion branch is unreachable
(`printSubGo_fuel` below makes this precise). -/
def printSubGo : Nat → Option Char → List Char → List Char
  | _, _, [] => []
  | 0, _, l => l
  | fuel + 1, prev, c :: rest =>
    if boundaryOk prev then
      match matchPrintSub (c :: rest) with
      | some (grp, after) =>
        printLit ++ ('(' :: grp ++ [')']) ++ printSubGo fuel (some (grp.getLastD ')')) after
      | none => c :: printSubGo fuel (some c) rest
    else c :: printSubGo fuel (some c) rest

theorem printSubGo_fuel :
    ∀ (f1 : Nat) (l : List Char) (f2 : Nat) (prev : Option Char),
      l.length ≤ f1 → l.length ≤ f2 → printSubGo f1 prev l = printSubGo f2 prev l := by
  intro f1
  induction f1 with
  | zero =>
    intro l f2 prev h1 _
    have : l = [] := List.eq_nil_of_length_eq_zero (Nat.le_zero.mp h1)
    subst this
    cases f2 <;> rfl
  | succ f ih =>
    intro l f2 prev h1 h2
    cases l with
    | nil => cases f2 <;> rfl
    | cons c rest =>
      cases f2 with
      | zero => simp at h2
      | succ g =>
        rw [printSubGo, printSubGo]
        by_cases hb : boundaryOk prev = true
        · rw [if_pos hb, if_pos hb]
          cases hm : matchPrintSub (c :: rest) with
          | some pair =>
            obtain ⟨grp, after⟩ := pair
            have hlen := matchPrintSub_length hm
            simp only [List.length_cons] at hlen h1 h2
            have hrw := ih after g (some (grp.getLastD ')')) (by omega) (by omega)
            simp only [hrw]
          | none =>
            simp only [List.length_cons] at h1 h2
            have hrw := ih rest g (some c) (by omega) (by omega)
            simp only [hrw]
        · rw [if_neg hb, if_neg hb]
          simp only [List.length_cons] at h1 h2
          have hrw := ih rest g (some c) (by omega) (by omega)
          simp only [hrw]

/-- The statement-print rewrite used by `_auto_fix`. -/
def printSub (code : String) : String :=
  String.mk (printSubGo code.toList.length none code.toList)

/-- The pip-install prelude prepended for an unmapped missing module
(f-string in `_auto_fix`, with `mod` interpolated). -/
def pipPrelude (mod : String) : String :=
  "import subprocess, sys\n" ++
  "subprocess.check_call([sys.executable, " ++ apos ++ "-m" ++ apos ++ ", " ++
  apos ++ "pip" ++ apos ++ ", " ++ apos ++ "install" ++ apos ++ ", " ++
  apos ++ "--quiet" ++ apos ++ ", " ++ apos ++ mod ++ apos ++ "])\n"

/-- xortron_mcp_bridge.py `_auto_fix`: attempt to repair (code, stderr);
returns the patched code, or `none` when no fix is known.  Direct
translation of the sequence of early-returning checks. -/
def _auto_fix (code stderr : String) : Option String :=
  let nameFix : Option String :=
    match searchCapture nameErrorLit stderr.toList with
    | some sym => (dictGet sym _IMPORT_MAP).map (fun imp => imp ++ "\n" ++ code)
    | none => none
  match nameFix with
  | some r => some r
  | none =>
    match searchCapture moduleErrorLit stderr.toList with
    | some m =>
      match dictGet m _IMPORT_MAP with
      | some imp => some (imp ++ "\n" ++ code)
      | none => some (pipPrelude m ++ code)
    | none =>
      if strContains stderr "IndentationError" then some (dedent code)
      else if strContains stderr "SyntaxError" && searchPrintStmt code then
        let fixed := printSub code
        if fixed ≠ code then some fixed else none
      else none

/-- Rule 1 of the spec's repair table: undefined-name failure referencing a
mapped symbol prepends the corresponding import statement. -/
def specRuleNameError (code stderr : String) : Option String :=
  match searchCapture nameErrorLit stderr.toList with
  | some sym => (dictGet sym _IMPORT_MAP).map (fun imp => imp ++ "\n" ++ code)
  | none => none

/-- Rule 2 of the spec's repair table: missing-module failure prepends the
mapped import, or the runtime pip-install fallback for unmapped modules. -/
def specRuleModule (code stderr : String) : Option String :=
  match searchCapture moduleErrorLit stderr.toList with
  | some m =>
    match dictGet m _IMPORT_MAP with
    | some imp => some (imp ++ "\n" ++ code)
    | none => some (pipPrelude m ++ code)
  | none => none

/-- Rule 3 of the spec's repair table: indentation failure dedents uniformly. -/
def specRuleIndent (code stderr : String) : Option String :=
  if strContains stderr "IndentationError" then some (dedent code) else none

/-- Rule 4 of the spec's repair table (as amended): statement-style print
under a SyntaxError is rewritten to call style, provided the rewrite
actually changes the code. -/
def specRulePrint (code stderr : String) : Option String :=
  if strContains stderr "SyntaxError" && searchPrintStmt code then
    let fixed := printSub code
    if fixed ≠ code then some fixed else none
  else none

/-- First-match-wins evaluation of an ordered rule list. -/
def firstMatch (code stderr : String) : List (String → String → Option String) → Option String
  | [] => none
  | r :: rs =>
    match r code stderr with
    | some p => some p
    | none => firstMatch code stderr rs

/-- The repair heuristics table as the spec words it: a data-driven ordered
rule list tried first-match-wins. -/
def autoFixSpec (code stderr : String) : Option String :=
  firstMatch code stderr [specRuleNameError, specRuleModule, specRuleIndent, specRulePrint]

/-- One content item of a transport-level tool response.  `text = none`
models an item without a `text` attribute, for which the bridge falls back
to `str(item)` (`strRepr`). -/
structure ContentItem where
  text : Option String
  strRepr : String
deriving DecidableEq, Repr

/-- A transport-level response to a tool call: its list of content items. -/
structure ToolResponse where
  content : List ContentItem
deriving DecidableEq, Repr

/-- xortron_mcp_bridge.py `McpCodeBridge._call_tool`: guard against empty
content and blank text, then decode the JSON payload.  `decode` models
`json.loads` on the payload text. -/
def _call_tool (decode : String → ExecResult) (resp : ToolResponse) : ExecResult :=
  match resp.content with
  | [] => { error := some "MCP server returned empty content", exit_code := some (-1) }
  | item :: _ =>
    let raw := item.text.getD item.strRepr
    if raw = "" then { error := some "MCP server returned blank text", exit_code := some (-1) }
    else decode raw

/-- A serialized tool call as sent by the bridge: tool name, the code or
command argument, and the timeout. -/
structure ToolCall where
  tool : String
  arg : String
  timeout : ℚ
deriving DecidableEq, Repr

/-- xortron_mcp_bridge.py `McpCodeBridge.execute_shell`: a single protocol
round-trip with no retry layer and no result annotation.  `transport` models
the session round-trip, `decode` models `json.loads`. -/
def execute_shell (transport : ToolCall → ToolResponse) (decode : String → ExecResult)
    (cmd : String) (timeout : ℚ) : ExecResult :=
  _call_tool decode (transport { tool := "execute_shell", arg := cmd, timeout := timeout })

/-- The two dict assignments `result["attempts"] = n` and
`result["final_code"] = c` performed before every return of
`execute_python`. -/
def annotate (r : ExecResult) (n : Nat) (c : String) : ExecResult :=
  { r with attempts := some n, final_code := some c }

/-- The `while attempt < bound` retry loop of
xortron_mcp_bridge.py `McpCodeBridge.execute_python`, as a function of the
number of loop iterations still permitted (`remaining = bound - attempt`,
positive on entry).  `call n code t` models
`_call_tool("execute_python", code, timeout)` performed as attempt `n`.
The `remaining = 0` case corresponds to the loop condition failing before
any iteration, which is unreachable from `execute_python` (`bound ≥ 1`); in
Python `result` would be unbound there. -/
def runAttempts (call : Nat → String → ℚ → ExecResult) (self_correct : Bool) (timeout : ℚ) :
    Nat → Nat → String → ExecResult
  | 0, attempt, code => annotate {} attempt code
  | remaining + 1, attempt, code =>
    let n := attempt + 1
    let result := call n code timeout
    if result.exit_code.getD 0 = 0 then
      annotate result n code
    else if MAX_SELF_CORRECT_ATTEMPTS ≤ n ∨ self_correct = false then
      annotate result n code
    else
      match _auto_fix code (pyOrS (result.stderr.getD "") (result.error.getD "")) with
      | none => annotate result n code
      | some fixed => runAttempts call self_correct timeout remaining n fixed

/-- xortron_mcp_bridge.py `McpCodeBridge.execute_python`: normalize the
incoming code with `textwrap.dedent(...).strip()`, then run the retry loop
with bound `MAX_SELF_CORRECT_ATTEMPTS` (or 1 when `self_correct` is off). -/
def execute_python (call : Nat → String → ℚ → ExecResult) (code : String)
    (timeout : ℚ := 30) (self_correct : Bool := true) : ExecResult :=
  let current := pyStrip (dedent code)
  runAttempts call self_correct timeout
    (if self_correct then MAX_SELF_CORRECT_ATTEMPTS else 1) 0 current

/-- C1: a shell command containing any denylist substring short-circuits in
`_run_shell`: the result is independent of the subprocess outcome (the spawn
branch is unreachable, no subprocess is created), carries `exit_code = -1`,
and its `error` names the blocked pattern. -/
theorem C1_denylist_short_circuit (cmd : String) (t : ℚ) (o : ProcOutcome)
    (h : ∃ b ∈ BLOCKED_SHELL_PATTERNS, strContains cmd b = true) :
    (∀ o2 : ProcOutcome, _run_shell cmd t o2 = _run_shell cmd t o) ∧
    (_run_shell cmd t o).exit_code = some (-1) ∧
    ∃ b ∈ BLOCKED_SHELL_PATTERNS, strContains cmd b = true ∧
      (_run_shell cmd t o).error
        = some ("Blocked pattern detected: " ++ apos ++ b ++ apos) := by
  obtain ⟨b, hb, hbc⟩ := h
  have hsome : (BLOCKED_SHELL_PATTERNS.find? (fun blocked => strContains cmd blocked)).isSome := by
    rw [List.find?_isSome]
    exact ⟨b, hb, hbc⟩
  obtain ⟨b0, hfind⟩ := Option.isSome_iff_exists.mp hsome
  have hb0mem : b0 ∈ BLOCKED_SHELL_PATTERNS := List.mem_of_find?_eq_some hfind
  have hb0c : strContains cmd b0 = true := List.find?_some hfind
  refine ⟨?_, ?_, b0, hb0mem, hb0c, ?_⟩
  · intro o2; simp [_run_shell, hfind]
  · simp [_run_shell, hfind]
  · simp [_run_shell, hfind]

/-- Witness for C1: the command `rm -rf / tmp` contains a denylist
substring and is refused with `exit_code = -1`. -/
theorem C1_denylist_witness :
    (∃ b ∈ BLOCKED_SHELL_PATTERNS, strContains "rm -rf / tmp" b = true) ∧
    (_run_shell "rm -rf / tmp" 15 .timesOut).exit_code = some (-1) :=
  ⟨⟨"rm -rf /", by decide, by decide⟩,
    (C1_denylist_short_circuit "rm -rf / tmp" 15 .timesOut
      ⟨"rm -rf /", by decide, by decide⟩).2.1⟩

/-- C3 counterexample: the MCP server's python timeout path returns no
`elapsed_s` key at all (the claim requires `elapsed_s` equal to the
configured timeout), and the shell timeout path uses the message prefix
`Shell command timed out`, not `Execution timed out`. -/
theorem C3_counterexample :
    (_run_python "while True: pass" 30 .timesOut).elapsed_s = none ∧
    (_run_shell "sleep 60" 15 .timesOut).elapsed_s = none ∧
    (_run_shell "sleep 60" 15 .timesOut).error
      = some ("Shell command timed out after " ++ pyFloatStr 15 ++ "s") :=
  ⟨rfl, rfl, rfl⟩

/-- C3 (amended): on timeout all three executors return `exit_code = -1`;
the HTTP front end's `execute_python` also reports
`error = "Execution timed out after {timeout}s"` and `elapsed_s` equal to
the configured timeout, while the MCP server's `_run_python` reports the
same error without an `elapsed_s` key and `_run_shell` reports
`"Shell command timed out after {timeout}s"` without an `elapsed_s` key. -/
theorem C3_timeout_results (code cmd : String) (t : ℚ)
    (hcmd : ∀ b ∈ BLOCKED_SHELL_PATTERNS, ¬ strContains cmd b = true) :
    _run_python code t .timesOut =
      { error := some ("Execution timed out after " ++ pyFloatStr t ++ "s"),
        exit_code := some (-1) } ∧
    _run_shell cmd t .timesOut =
      { error := some ("Shell command timed out after " ++ pyFloatStr t ++ "s"),
        exit_code := some (-1) } ∧
    HttpServer.execute_python code t .timesOut =
      { error := some ("Execution timed out after " ++ pyFloatStr t ++ "s"),
        stdout := some "", stderr := some "", exit_code := some (-1),
        elapsed_s := some t } := by
  have hfind : BLOCKED_SHELL_PATTERNS.find? (fun blocked => strContains cmd blocked) = none :=
    List.find?_eq_none.mpr hcmd
  refine ⟨rfl, ?_, rfl⟩
  simp [_run_shell, hfind]

/-- Witness for C3 (amended) at a non-denylisted command and timeout 2. -/
theorem C3_timeout_witness :
    (∀ b ∈ BLOCKED_SHELL_PATTERNS, ¬ strContains "sleep 60" b = true) ∧
    _run_shell "sleep 60" 2 .timesOut =
      { error := some ("Shell command timed out after " ++ pyFloatStr 2 ++ "s"),
        exit_code := some (-1) } :=
  ⟨by decide, (C3_timeout_results "while True: pass" "sleep 60" 2 (by decide)).2.1⟩

/-- C4: with `self_correct = false` the controller performs exactly one
executor call: for every oracle, code and timeout the returned result is the
first call's result annotated with `attempts = 1` and the normalized input
as `final_code`. -/
theorem C4_no_self_correct_single_attempt (call : Nat → String → ℚ → ExecResult)
    (code : String) (t : ℚ) :
    execute_python call code t false
      = annotate (call 1 (pyStrip (dedent code)) t) 1 (pyStrip (dedent code)) := by
  show runAttempts call false t 1 0 (pyStrip (dedent code)) = _
  rw [runAttempts]
  by_cases hz : (call (0 + 1) (pyStrip (dedent code)) t).exit_code.getD 0 = 0
  · simp [hz]
  · simp [hz]

/-- C7: a transport response with no content, or whose first content item
carries an empty text payload, is translated by `_call_tool` into an
`error` result with `exit_code = -1` rather than a raised fault. -/
theorem C7_empty_transport_response (decode : String → ExecResult) (resp : ToolResponse)
    (h : resp.content = []
      ∨ ∃ item rest, resp.content = item :: rest ∧ item.text.getD item.strRepr = "") :
    ((_call_tool decode resp).error).isSome = true ∧
    (_call_tool decode resp).exit_code = some (-1) := by
  rcases h with h | ⟨item, rest, hc, ht⟩
  · simp [_call_tool, h]
  · simp [_call_tool, hc, ht]

/-- Witness for C7 at the empty-content response. -/
theorem C7_empty_witness :
    (({ content := [] } : ToolResponse).content = []
      ∨ ∃ item rest, ({ content := [] } : ToolResponse).content = item :: rest
          ∧ item.text.getD item.strRepr = "") ∧
    (_call_tool (fun _ => {}) { content := [] }).exit_code = some (-1) :=
  ⟨Or.inl rfl, (C7_empty_transport_response (fun _ => {}) { content := [] } (Or.inl rfl)).2⟩

theorem runAttempts_returns_annotated_call (call : Nat → String → ℚ → ExecResult)
    (sc : Bool) (t : ℚ) :
    ∀ (remaining attempt : Nat) (code : String), 0 < remaining →
      (sc = true → MAX_SELF_CORRECT_ATTEMPTS ≤ attempt + remaining) →
      ∃ n c, attempt < n ∧ n ≤ attempt + remaining ∧
        runAttempts call sc t remaining attempt code = annotate (call n c t) n c := by
  intro remaining
  induction remaining with
  | zero => intro attempt code h0 _; omega
  | succ r ih =>
    intro attempt code h0 hb
    by_cases hz : (call (attempt + 1) code t).exit_code.getD 0 = 0
    · refine ⟨attempt + 1, code, by omega, by omega, ?_⟩
      rw [runAttempts, if_pos hz]
    · by_cases hstop : MAX_SELF_CORRECT_ATTEMPTS ≤ attempt + 1 ∨ sc = false
      · refine ⟨attempt + 1, code, by omega, by omega, ?_⟩
        rw [runAttempts, if_neg hz, if_pos hstop]
      · have hsc : sc = true := by
          cases sc
          · exact absurd (Or.inr rfl) hstop
          · rfl
        have hlt : attempt + 1 < MAX_SELF_CORRECT_ATTEMPTS := by
          rcases Nat.lt_or_ge (attempt + 1) MAX_SELF_CORRECT_ATTEMPTS with h | h
          · exact h
          · exact absurd (Or.inl h) hstop
        cases hfix : _auto_fix code
            (pyOrS (((call (attempt + 1) code t).stderr).getD "")
                   (((call (attempt + 1) code t).error).getD "")) with
        | none =>
          refine ⟨attempt + 1, code, by omega, by omega, ?_⟩
          rw [runAttempts, if_neg hz, if_neg hstop, hfix]
        | some fixed =>
          have hr : 0 < r := by
            have := hb hsc
            omega
          obtain ⟨n, c, hn1, hn2, heq⟩ := ih (attempt + 1) fixed hr
            (fun _ => by have := hb hsc; omega)
          refine ⟨n, c, by omega, by omega, ?_⟩
          rw [runAttempts, if_neg hz, if_neg hstop, hfix]
          exact heq

/-- C2 counterexample: `execute_shell` returns the decoded executor result
unmodified; for a concrete transport response and decoded shell result the
returned dict has no `attempts` key at all, contradicting the claim that
every result of the two public operations carries `1 ≤ attempts ≤
MAX_SELF_CORRECT_ATTEMPTS` and a `final_code`. -/
theorem C2_counterexample :
    (execute_shell (fun _ => { content := [{ text := some "res", strRepr := "res" }] })
        (fun _ => _run_shell "ls" 15 (.completes "file.txt" "" 0 (3 / 1000)))
        "ls" 15).attempts = none ∧
    (execute_shell (fun _ => { content := [{ text := some "res", strRepr := "res" }] })
        (fun _ => _run_shell "ls" 15 (.completes "file.txt" "" 0 (3 / 1000)))
        "ls" 15).final_code = none :=
  ⟨rfl, rfl⟩

/-- C2 (amended): every result of `execute_python` carries
`attempts = n` with `1 ≤ n ≤ MAX_SELF_CORRECT_ATTEMPTS` and
`final_code = c` where `c` is the exact code submitted to the executor call
that produced the returned result; `execute_shell`, by contrast, forwards
the decoded transport result unmodified, with no `attempts`/`final_code`
annotation. -/
theorem C2_attempts_final_code (call : Nat → String → ℚ → ExecResult) (code : String)
    (t : ℚ) (sc : Bool) (transport : ToolCall → ToolResponse)
    (decode : String → ExecResult) (cmd : String) (t2 : ℚ) :
    (∃ n c, 1 ≤ n ∧ n ≤ MAX_SELF_CORRECT_ATTEMPTS ∧
      execute_python call code t sc = annotate (call n c t) n c) ∧
    execute_shell transport decode cmd t2
      = _call_tool decode (transport { tool := "execute_shell", arg := cmd, timeout := t2 }) := by
  constructor
  · obtain ⟨n, c, h1, h2, heq⟩ :=
      runAttempts_returns_annotated_call call sc t
        (if sc then MAX_SELF_CORRECT_ATTEMPTS else 1) 0 (pyStrip (dedent code))
        (by cases sc <;> simp [MAX_SELF_CORRECT_ATTEMPTS])
        (by intro hsc; rw [hsc]; simp)
    refine ⟨n, c, by omega, ?_, heq⟩
    cases sc
    · simp only [if_neg Bool.false_ne_true] at h2
      simp [MAX_SELF_CORRECT_ATTEMPTS]
      omega
    · simpa using h2
  · rfl

/-- C6: when an attempt fails and `_auto_fix` returns no fix, the retry
loop stops immediately with the most recent failing result (annotated),
performing no further executor calls, even though the attempt counter has
not reached `MAX_SELF_CORRECT_ATTEMPTS`. -/
theorem C6_no_fix_stops (call : Nat → String → ℚ → ExecResult) (t : ℚ)
    (r attempt : Nat) (code : String)
    (hfail : ¬ (call (attempt + 1) code t).exit_code.getD 0 = 0)
    (hcap : attempt + 1 < MAX_SELF_CORRECT_ATTEMPTS)
    (hfix : _auto_fix code
        (pyOrS (((call (attempt + 1) code t).stderr).getD "")
               (((call (attempt + 1) code t).error).getD "")) = none) :
    runAttempts call true t (r + 1) attempt code
      = annotate (call (attempt + 1) code t) (attempt + 1) code := by
  rw [runAttempts, if_neg hfail, if_neg (not_or.mpr ⟨by omega, by simp⟩), hfix]

/-- The failing, unrepairable executor result used by the C6 witness. -/
def zeroDivResult : ExecResult :=
  { stderr := some "ZeroDivisionError: division by zero", exit_code := some 1 }

/-- Witness for C6: a failing result with an unrepairable stderr stops the
loop at attempt 1 of 3. -/
theorem C6_no_fix_witness :
    ¬ (zeroDivResult.exit_code.getD 0 = 0) ∧
    (0 : Nat) + 1 < MAX_SELF_CORRECT_ATTEMPTS ∧
    runAttempts (fun _ _ _ => zeroDivResult) true 30 3 0 "1/0"
      = annotate zeroDivResult 1 "1/0" :=
  ⟨by decide, by decide,
    C6_no_fix_stops (fun _ _ _ => zeroDivResult) 30 2 0 "1/0" (by decide) (by decide) rfl⟩

/-- C10: the controller's success test is `result.get("exit_code", 0) == 0`,
so a first-attempt executor result lacking the `exit_code` key entirely —
such as the server's generic exception dict, which carries only `error` and
`traceback` — is classified as a success: it is returned immediately with
`attempts = 1` and `final_code` attached, never reaching the repair loop. -/
theorem C10_missing_exit_code_is_success (call : Nat → String → ℚ → ExecResult)
    (code : String) (t : ℚ) (sc : Bool) (arg : String) (t2 : ℚ) (msg tb : String)
    (h : (call 1 (pyStrip (dedent code)) t).exit_code = none) :
    execute_python call code t sc
      = annotate (call 1 (pyStrip (dedent code)) t) 1 (pyStrip (dedent code)) ∧
    (call_tool "execute_python" arg t2 (.raises msg tb)).exit_code = none := by
  refine ⟨?_, rfl⟩
  show runAttempts call sc t (if sc then MAX_SELF_CORRECT_ATTEMPTS else 1) 0
      (pyStrip (dedent code)) = _
  have hz : (call (0 + 1) (pyStrip (dedent code)) t).exit_code.getD 0 = 0 := by
    simp only [Nat.zero_add, h, Option.getD_none]
  cases sc
  · show runAttempts call false t 1 0 (pyStrip (dedent code)) = _
    rw [runAttempts, if_pos hz]
  · show runAttempts call true t MAX_SELF_CORRECT_ATTEMPTS 0 (pyStrip (dedent code)) = _
    rw [show MAX_SELF_CORRECT_ATTEMPTS = 2 + 1 from rfl, runAttempts, if_pos hz]

/-- Witness for C10: an oracle returning the server's exception dict (no
`exit_code` key) is returned as a success on attempt 1. -/
theorem C10_missing_exit_code_witness :
    ((fun (_ : Nat) (_ : String) (_ : ℚ) =>
        ({ error := some "boom", traceback := some "tb" } : ExecResult))
      1 (pyStrip (dedent "print(1)")) 30).exit_code = none ∧
    execute_python (fun _ _ _ => { error := some "boom", traceback := some "tb" })
        "print(1)" 30 true
      = annotate { error := some "boom", traceback := some "tb" } 1 "print(1)" :=
  ⟨rfl,
    (C10_missing_exit_code_is_success (fun _ _ _ => { error := some "boom", traceback := some "tb" })
      "print(1)" 30 true "x" 15 "m" "t" rfl).1⟩

/-- C5 counterexample: for `code = "print \n"` and a SyntaxError stderr,
rules 1–3 do not apply and the rule-4 detection pattern
`\bprint\s+[^(]` does match the code, yet `_auto_fix` returns `none`
rather than the rewritten code, because the substitution
`\bprint\s+(.+)` changes nothing here and the source only returns the
rewrite when it differs from the input. -/
theorem C5_counterexample :
    searchCapture nameErrorLit "SyntaxError: invalid syntax".toList = none ∧
    searchCapture moduleErrorLit "SyntaxError: invalid syntax".toList = none ∧
    strContains "SyntaxError: invalid syntax" "IndentationError" = false ∧
    strContains "SyntaxError: invalid syntax" "SyntaxError" = true ∧
    searchPrintStmt "print \n" = true ∧
    printSub "print \n" = "print \n" ∧
    _auto_fix "print \n" "SyntaxError: invalid syntax" = none := by
  refine ⟨by decide, by decide, by decide, by decide, by decide, by decide, by decide⟩

/-- C5 (amended): `_auto_fix` coincides, on every input, with the ordered
first-match rule list the spec describes, where rule 4 (statement-style
print under a SyntaxError) yields the call-style rewrite only when the
rewrite actually changes the code, and `none` is returned otherwise. -/
theorem C5_auto_fix_rule_order (code stderr : String) :
    _auto_fix code stderr = autoFixSpec code stderr := by
  cases hn : searchCapture nameErrorLit stderr.data with
  | some sym =>
    cases hd : dictGet sym _IMPORT_MAP with
    | some imp =>
      simp [_auto_fix, autoFixSpec, firstMatch, specRuleNameError, hn, hd]
    | none =>
      cases hm : searchCapture moduleErrorLit stderr.data with
      | some m =>
        cases hd2 : dictGet m _IMPORT_MAP with
        | some imp2 =>
          simp [_auto_fix, autoFixSpec, firstMatch, specRuleNameError, specRuleModule,
            hn, hd, hm, hd2]
        | none =>
          simp [_auto_fix, autoFixSpec, firstMatch, specRuleNameError, specRuleModule,
            hn, hd, hm, hd2]
      | none =>
        by_cases hi : strContains stderr "IndentationError" = true
        · simp [_auto_fix, autoFixSpec, firstMatch, specRuleNameError, specRuleModule,
            specRuleIndent, hn, hd, hm, hi]
        · by_cases hs : (strContains stderr "SyntaxError" && searchPrintStmt code) = true
          · by_cases hf : printSub code = code
            · simp [_auto_fix, autoFixSpec, firstMatch, specRuleNameError, specRuleModule,
                specRuleIndent, specRulePrint, hn, hd, hm, hi, hs, hf]
            · simp [_auto_fix, autoFixSpec, firstMatch, specRuleNameError, specRuleModule,
                specRuleIndent, specRulePrint, hn, hd, hm, hi, hs, hf]
          · simp [_auto_fix, autoFixSpec, firstMatch, specRuleNameError, specRuleModule,
              specRuleIndent, specRulePrint, hn, hd, hm, hi, hs]
  | none =>
    cases hm : searchCapture moduleErrorLit stderr.data with
    | some m =>
      cases hd2 : dictGet m _IMPORT_MAP with
      | some imp2 =>
        simp [_auto_fix, autoFixSpec, firstMatch, specRuleNameError, specRuleModule,
          hn, hm, hd2]
      | none =>
        simp [_auto_fix, autoFixSpec, firstMatch, specRuleNameError, specRuleModule,
          hn, hm, hd2]
    | none =>
      by_cases hi : strContains stderr "IndentationError" = true
      · simp [_auto_fix, autoFixSpec, firstMatch, specRuleNameError, specRuleModule,
          specRuleIndent, hn, hm, hi]
      · by_cases hs : (strContains stderr "SyntaxError" && searchPrintStmt code) = true
        · by_cases hf : printSub code = code
          · simp [_auto_fix, autoFixSpec, firstMatch, specRuleNameError, specRuleModule,
              specRuleIndent, specRulePrint, hn, hm, hi, hs, hf]
          · simp [_auto_fix, autoFixSpec, firstMatch, specRuleNameError, specRuleModule,
              specRuleIndent, specRulePrint, hn, hm, hi, hs, hf]
        · simp [_auto_fix, autoFixSpec, firstMatch, specRuleNameError, specRuleModule,
            specRuleIndent, specRulePrint, hn, hm, hi, hs]

/-- C8 counterexample: the valid JSON object body with an empty `code` and
`"timeout": null` satisfies the claim's antecedent (code empty after
trimming), but `float(None)` raises before the empty-code check, so the
handler raises instead of answering HTTP 400 "No code provided". -/
theorem C8_counterexample :
    HttpServer.do_POST "/execute" (.object [("code", .jstr " "), ("timeout", .jnull)])
      = .raisedFault ∧
    pyStrip " " = "" := ⟨by decide, by decide⟩

/-- C8 (amended): for POST /execute, a malformed JSON body yields HTTP 400
"Invalid JSON body"; a JSON object body whose `code` is a string (or
absent, defaulting to "") and whose `timeout` is absent or accepted by
`float` yields HTTP 400 "No code provided" when the code is empty after
trimming, and only otherwise executes the code; bodies whose `timeout`
value `float` rejects raise inside the handler before the empty-code
check. -/
theorem C8_post_validation (pairs : List (String × JVal)) (code : String) (t : ℚ)
    (hcode : HttpServer.jget pairs "code" = some (.jstr code)
      ∨ (HttpServer.jget pairs "code" = none ∧ code = ""))
    (ht : (∃ tv, HttpServer.jget pairs "timeout" = some tv ∧ pyFloat tv = some t)
      ∨ (HttpServer.jget pairs "timeout" = none ∧ t = 30)) :
    HttpServer.do_POST "/execute" .malformed = .resp400 "Invalid JSON body" ∧
    HttpServer.do_POST "/execute" (.object pairs)
      = (if pyStrip code = "" then .resp400 "No code provided" else .executed code t) := by
  refine ⟨by decide, ?_⟩
  rcases hcode with hc | ⟨hc, hc2⟩
  · rcases ht with ⟨tv, htv, htv2⟩ | ⟨htv, ht2⟩
    · simp [HttpServer.do_POST, hc, htv, htv2]
    · subst ht2
      simp [HttpServer.do_POST, hc, htv, pyFloat]
  · subst hc2
    rcases ht with ⟨tv, htv, htv2⟩ | ⟨htv, ht2⟩
    · simp [HttpServer.do_POST, hc, htv, htv2]
    · subst ht2
      simp [HttpServer.do_POST, hc, htv, pyFloat]

/-- Witness for C8 at a well-typed body with a nonempty code and no
timeout field. -/
theorem C8_post_witness :
    HttpServer.do_POST "/execute" (.object [("code", .jstr "print(1)")])
      = .executed "print(1)" 30 := by
  have h := C8_post_validation [("code", .jstr "print(1)")] "print(1)" 30
    (Or.inl rfl) (Or.inr ⟨rfl, rfl⟩)
  rw [h.2, if_neg (by decide)]

/-- C9 counterexample: the façade's FunctionTool declarations reuse the
protocol catalog names but not its descriptions — the declared descriptions
are shorter summaries, so they are not character-for-character equal to the
`TOOLS` descriptors' descriptions. -/
theorem C9_counterexample :
    llama_tools.map (fun d => d.name) = TOOLS.map (fun d => d.name) ∧
    ¬ (llama_tools.map (fun d => d.description) = TOOLS.map (fun d => d.description)) := by
  refine ⟨by decide, by decide⟩

/-- C9 (amended): for each of the two operations the façade's declared name
is exactly the protocol descriptor's name, while each declared description
differs from the corresponding descriptor's description. -/
theorem C9_names_match_descriptions_differ :
    llama_tools.length = TOOLS.length ∧
    llama_tools.map (fun d => d.name) = TOOLS.map (fun d => d.name) ∧
    ∀ p ∈ (llama_tools.map (fun d => d.description)).zip
        (TOOLS.map (fun d => d.description)), ¬ p.1 = p.2 := by
  refine ⟨by decide, by decide, by decide⟩
